import Mathlib

/-!
Verification of the Task Vision backend (src/backend/server.py) against its
natural-language specification.

Modelling conventions for the shallow embedding:
* Timestamps are `Nat` (the code uses ISO datetime strings; no claim computes
  on calendar structure, only on presence/equality of timestamps).
* Generated uuid identifiers for activities and notifications are drawn from a
  counter `next_id` held in the database state; task and user ids are strings
  supplied by the caller, as in the stored documents.
* Float effort values (`estimated_hours`, `actual_hours`) are modelled as
  `Nat`; no claim performs arithmetic on them.
* Human-readable message strings are built exactly as in the code, except that
  the decorative quote characters around task titles are omitted.
* MongoDB collections are lists of documents in insertion order; `find_one`
  returns the first match, `update_one` updates the first match, `find(...)
  .to_list(n)` returns the first `n` matches, and `modified_count` counts
  documents whose stored value actually changed (MongoDB reports 0 for a
  `$set` that writes the value already present).
* The Python dict `connected_users` is an association list in insertion
  order: assignment replaces the value of an existing key in place, deletion
  removes the key.
* Socket.IO emissions are recorded in an `events` ledger inside the state.
-/

namespace TaskVision

inductive UserRole
  | admin
  | employee
deriving DecidableEq

inductive TaskStatus
  | not_started
  | in_progress
  | paused
  | completed
deriving DecidableEq

inductive TaskPriority
  | high
  | medium
  | low
deriving DecidableEq

/-- The stored user document (password and fields irrelevant to the claims
other than identity, role and presence are kept; `created_at` is dropped as
no claim mentions it). -/
structure User where
  id : String
  email : String
  name : String
  role : UserRole
  is_active : Bool
  is_online : Bool
  last_seen : Option Nat
deriving DecidableEq

/-- The stored task document, mirroring the `Task` pydantic model. -/
structure Task where
  id : String
  title : String
  description : String
  priority : TaskPriority
  status : TaskStatus
  assigned_to : Option String
  assigned_by : String
  created_at : Nat
  due_date : Option Nat
  completed_at : Option Nat
  estimated_hours : Option Nat
  actual_hours : Option Nat
  updated_at : Nat
deriving DecidableEq

/-- The `TaskUpdate` request body. An outer `none` means the field was not
supplied (pydantic `exclude_unset` drops it); for fields whose stored value
is itself optional the supplied value is an inner `Option`. -/
structure TaskUpdate where
  title : Option String
  description : Option String
  priority : Option TaskPriority
  status : Option TaskStatus
  assigned_to : Option (Option String)
  due_date : Option (Option Nat)
  estimated_hours : Option (Option Nat)
  actual_hours : Option (Option Nat)
deriving DecidableEq

/-- The stored activity document. -/
structure Activity where
  id : Nat
  user_id : String
  user_name : String
  action : String
  description : String
  task_id : Option String
  timestamp : Nat
deriving DecidableEq

/-- The stored notification document. -/
structure Notification where
  id : Nat
  user_id : String
  title : String
  content : String
  task_id : Option String
  is_read : Bool
  created_at : Nat
deriving DecidableEq

/-- Socket.IO emissions, as recorded in the event ledger. -/
inductive Event
  | activity_created (a : Activity)
  | notify (sid : String) (n : Notification)
  | task_updated (t : Task)
  | task_updated_room (room : String) (t : Task)
  | user_online (uid : String) (name : String) (role : UserRole)
  | user_offline (uid : String) (name : String) (role : UserRole)
deriving DecidableEq

/-- The whole observable state: the MongoDB collections, the in-process
`connected_users` dict (identity id to connection handle, insertion order),
the emitted-event ledger and the fresh-id counter. -/
structure DB where
  users : List User
  tasks : List Task
  activities : List Activity
  notifications : List Notification
  connected : List (String × String)
  events : List Event
  next_id : Nat
deriving DecidableEq

/-- HTTP error outcomes raised by the handlers. -/
inductive Err
  | unauthenticated (detail : String)
  | forbidden (detail : String)
  | notFound (detail : String)
deriving DecidableEq

/-- A bearer token as seen by `jwt.decode`: malformed, expired, or
successfully decoded with an optional `user_id` claim. -/
inductive Token
  | malformed
  | expired
  | signed (uid : Option String)
deriving DecidableEq

/-- `find_one`: first element satisfying the filter. -/
def findOne {α : Type} (p : α → Prop) [DecidablePred p] : List α → Option α
  | [] => none
  | x :: xs => if p x then some x else findOne p xs

/-- `update_one` with `$set`: rewrite the first element satisfying the
filter, leave the rest untouched. -/
def updateFirst {α : Type} (p : α → Prop) [DecidablePred p] (f : α → α) : List α → List α
  | [] => []
  | x :: xs => if p x then f x :: xs else x :: updateFirst p f xs

/-- `find(filter)`: all matching documents in insertion order. -/
def listFilter {α : Type} (p : α → Prop) [DecidablePred p] : List α → List α
  | [] => []
  | x :: xs => if p x then x :: listFilter p xs else listFilter p xs

/-- `count_documents(filter)`. -/
def countDocs {α : Type} (p : α → Prop) [DecidablePred p] : List α → Nat
  | [] => 0
  | x :: xs => (if p x then 1 else 0) + countDocs p xs

/-- Python dict lookup `d.get(k)`. -/
def dictGet : List (String × String) → String → Option String
  | [], _ => none
  | kv :: rest, k => if kv.1 = k then some kv.2 else dictGet rest k

/-- Python dict assignment `d[k] = v`: replace in place, or append. -/
def dictSet : List (String × String) → String → String → List (String × String)
  | [], k, v => [(k, v)]
  | kv :: rest, k, v => if kv.1 = k then (k, v) :: rest else kv :: dictSet rest k v

/-- Python dict deletion `del d[k]`. -/
def dictDel : List (String × String) → String → List (String × String)
  | [], _ => []
  | kv :: rest, k => if kv.1 = k then dictDel rest k else kv :: dictDel rest k

/-- `get_current_user`: decode the token, extract `user_id`, look the user
up; every failure is a 401. -/
def get_current_user (st : DB) (tok : Token) : Except Err User :=
  match tok with
  | Token.malformed => Except.error (Err.unauthenticated "Invalid token")
  | Token.expired => Except.error (Err.unauthenticated "Token expired")
  | Token.signed none => Except.error (Err.unauthenticated "Invalid token")
  | Token.signed (some uid) =>
    match findOne (fun u => u.id = uid) st.users with
    | none => Except.error (Err.unauthenticated "User not found")
    | some u => Except.ok u

/-- The role-based field mask applied to `task_update.dict(exclude_unset)`:
employees keep only `status` and `actual_hours`, admins keep everything. -/
def filteredRequest (role : UserRole) (req : TaskUpdate) : TaskUpdate :=
  match role with
  | UserRole.employee =>
    { title := none, description := none, priority := none,
      status := req.status, assigned_to := none, due_date := none,
      estimated_hours := none, actual_hours := req.actual_hours }
  | UserRole.admin => req

/-- The `update_data` dict as assembled by `update_task` just before the
`$set`: the masked request fields, the unconditional `updated_at` stamp, and
the derived `completed_at` on a transition into `completed`. -/
structure UpdateData where
  title : Option String
  description : Option String
  priority : Option TaskPriority
  status : Option TaskStatus
  assigned_to : Option (Option String)
  due_date : Option (Option Nat)
  estimated_hours : Option (Option Nat)
  actual_hours : Option (Option Nat)
  updated_at : Option Nat
  completed_at : Option Nat
deriving DecidableEq

def buildUpdateData (stored : Task) (now : Nat) (role : UserRole) (req : TaskUpdate) : UpdateData :=
  let fr := filteredRequest role req
  { title := fr.title, description := fr.description, priority := fr.priority,
    status := fr.status, assigned_to := fr.assigned_to, due_date := fr.due_date,
    estimated_hours := fr.estimated_hours, actual_hours := fr.actual_hours,
    updated_at := some now,
    completed_at :=
      if fr.status = some TaskStatus.completed ∧ stored.status ≠ TaskStatus.completed
      then some now else none }

/-- The effect of `$set update_data` on one task document. -/
def applySet (t : Task) (ud : UpdateData) : Task :=
  { id := t.id
    title := ud.title.getD t.title
    description := ud.description.getD t.description
    priority := ud.priority.getD t.priority
    status := ud.status.getD t.status
    assigned_to := ud.assigned_to.getD t.assigned_to
    assigned_by := t.assigned_by
    created_at := t.created_at
    due_date := ud.due_date.getD t.due_date
    completed_at := match ud.completed_at with
      | some n => some n
      | none => t.completed_at
    estimated_hours := ud.estimated_hours.getD t.estimated_hours
    actual_hours := ud.actual_hours.getD t.actual_hours
    updated_at := ud.updated_at.getD t.updated_at }

/-- The full transformation `update_task` applies to the target task
document itself. -/
def taskUpdateCore (t : Task) (now : Nat) (role : UserRole) (req : TaskUpdate) : Task :=
  applySet t (buildUpdateData t now role req)

/-- `status.replace(underscore, space).title()` on the closed status enum. -/
def statusDisplay : TaskStatus → String
  | TaskStatus.not_started => "Not Started"
  | TaskStatus.in_progress => "In Progress"
  | TaskStatus.paused => "Paused"
  | TaskStatus.completed => "Completed"

/-- `create_activity`: insert the document and emit `activity_created`. -/
def create_activity (st : DB) (now : Nat) (user_id user_name action description : String)
    (task_id : Option String) : DB :=
  let a : Activity :=
    { id := st.next_id, user_id := user_id, user_name := user_name,
      action := action, description := description, task_id := task_id, timestamp := now }
  { st with activities := st.activities ++ [a],
            events := st.events ++ [Event.activity_created a],
            next_id := st.next_id + 1 }

/-- `create_notification`: insert the document, then emit a targeted
`notification` event only when the recipient currently has a registered
connection handle. -/
def create_notification (st : DB) (now : Nat) (user_id title content : String)
    (task_id : Option String) : DB :=
  let n : Notification :=
    { id := st.next_id, user_id := user_id, title := title, content := content,
      task_id := task_id, is_read := false, created_at := now }
  let st1 := { st with notifications := st.notifications ++ [n], next_id := st.next_id + 1 }
  match dictGet st1.connected user_id with
  | some sid => { st1 with events := st1.events ++ [Event.notify sid n] }
  | none => st1

/-- The activity/notification block of `update_task`: when `update_data`
contains a status whose value differs from the stored one, record one
activity, and, when the caller is an employee, create one notification per
admin returned by `db.users.find(role admin).to_list(10)`. -/
def recordStatusChange (st : DB) (now : Nat) (caller : User) (task_id : String)
    (ud : UpdateData) (task_data : Task) : DB :=
  match ud.status with
  | none => st
  | some new_status =>
    if task_data.status ≠ new_status then
      let st2 := create_activity st now caller.id caller.name "task_status_changed"
        ("Changed task " ++ task_data.title ++ " status from "
          ++ statusDisplay task_data.status ++ " to " ++ statusDisplay new_status)
        (some task_id)
      if caller.role = UserRole.employee then
        ((listFilter (fun u => u.role = UserRole.admin) st2.users).take 10).foldl
          (fun acc admin =>
            create_notification acc now admin.id "Task Status Updated"
              (caller.name ++ " updated task " ++ task_data.title ++ " to "
                ++ statusDisplay new_status)
              (some task_id))
          st2
      else st2
    else st

/-- The body of `update_task` after the permission checks: `$set` the update
data, re-read the document, run the activity/notification block, emit
`task_updated` globally and to the task room, return the re-read task. -/
def updateTaskBody (st : DB) (now : Nat) (caller : User) (task_id : String)
    (task_update : TaskUpdate) (task_data : Task) : DB × Except Err Task :=
  let ud := buildUpdateData task_data now caller.role task_update
  let st1 : DB :=
    { st with tasks := updateFirst (fun t => t.id = task_id) (fun t => applySet t ud) st.tasks }
  let updated_task :=
    match findOne (fun t => t.id = task_id) st1.tasks with
    | some t => t
    | none => applySet task_data ud
  let st2 := recordStatusChange st1 now caller task_id ud task_data
  let pushed := [Event.task_updated updated_task,
                 Event.task_updated_room ("task_" ++ task_id) updated_task]
  let st3 : DB := { st2 with events := st2.events ++ pushed }
  (st3, Except.ok updated_task)

/-- `update_task` handler: load, authorize, then run the body. -/
def update_task (st : DB) (now : Nat) (caller : User) (task_id : String)
    (task_update : TaskUpdate) : DB × Except Err Task :=
  match findOne (fun t => t.id = task_id) st.tasks with
  | none => (st, Except.error (Err.notFound "Task not found"))
  | some task_data =>
    if caller.role = UserRole.employee ∧ task_data.assigned_to ≠ some caller.id then
      (st, Except.error (Err.forbidden "Access denied"))
    else
      updateTaskBody st now caller task_id task_update task_data

/-- The protected endpoint: token resolution happens before the handler. -/
def update_task_endpoint (st : DB) (now : Nat) (tok : Token) (task_id : String)
    (task_update : TaskUpdate) : DB × Except Err Task :=
  match get_current_user st tok with
  | Except.error e => (st, Except.error e)
  | Except.ok user => update_task st now user task_id task_update

/-- `get_tasks`: admins list every task, employees only their assigned ones;
either query is read through `.to_list(1000)`. -/
def get_tasks (st : DB) (caller : User) : List Task :=
  if caller.role = UserRole.admin then
    st.tasks.take 1000
  else
    (listFilter (fun t => t.assigned_to = some caller.id) st.tasks).take 1000

/-- `get_task`: load one task; an employee who is not the assignee is
rejected with 403. -/
def get_task (st : DB) (caller : User) (task_id : String) : Except Err Task :=
  match findOne (fun t => t.id = task_id) st.tasks with
  | none => Except.error (Err.notFound "Task not found")
  | some t =>
    if caller.role = UserRole.employee ∧ t.assigned_to ≠ some caller.id then
      Except.error (Err.forbidden "Access denied")
    else
      Except.ok t

/-- `mark_notification_read`: `update_one` filtered by id and recipient,
then 404 when `modified_count` is zero. MongoDB reports `modified_count = 0`
both when no document matched and when the matched document already carried
`is_read = true`. -/
def mark_notification_read (st : DB) (caller : User) (notification_id : Nat) :
    DB × Except Err Unit :=
  let p := fun n : Notification => n.id = notification_id ∧ n.user_id = caller.id
  let st1 :=
    { st with notifications := updateFirst p (fun n => { n with is_read := true }) st.notifications }
  let modified_count :=
    match findOne p st.notifications with
    | some n => if n.is_read then 0 else 1
    | none => 0
  if modified_count = 0 then (st1, Except.error (Err.notFound "Notification not found"))
  else (st1, Except.ok ())

/-- The dashboard stats payload; the employee variant carries no employee
counters. -/
structure DashboardStats where
  total_tasks : Nat
  completed_tasks : Nat
  pending_tasks : Nat
  total_employees : Option Nat
  online_employees : Option Nat
deriving DecidableEq

/-- `get_dashboard_stats`: admin counts range over all tasks, employee
counts over the caller's assigned tasks; completed and pending use the
filters status equal completed and status not equal completed. -/
def get_dashboard_stats (st : DB) (caller : User) : DashboardStats :=
  if caller.role = UserRole.admin then
    { total_tasks := countDocs (fun _ => True) st.tasks,
      completed_tasks := countDocs (fun t => t.status = TaskStatus.completed) st.tasks,
      pending_tasks := countDocs (fun t => ¬ t.status = TaskStatus.completed) st.tasks,
      total_employees := some (countDocs (fun u => u.role = UserRole.employee) st.users),
      online_employees :=
        some (countDocs (fun u => u.role = UserRole.employee ∧ u.is_online = true) st.users) }
  else
    { total_tasks := countDocs (fun t => t.assigned_to = some caller.id) st.tasks,
      completed_tasks :=
        countDocs (fun t => t.assigned_to = some caller.id ∧ t.status = TaskStatus.completed) st.tasks,
      pending_tasks :=
        countDocs (fun t => t.assigned_to = some caller.id ∧ ¬ t.status = TaskStatus.completed) st.tasks,
      total_employees := none,
      online_employees := none }

/-- Socket.IO `connect`: on a decodable token carrying a `user_id`, register
the handle in `connected_users`, flip the user online, and broadcast
`user_online` when the user document exists. Decode failures are swallowed. -/
def connect (st : DB) (now : Nat) (sid : String) (auth : Option Token) : DB :=
  match auth with
  | none => st
  | some Token.malformed => st
  | some Token.expired => st
  | some (Token.signed none) => st
  | some (Token.signed (some uid)) =>
    let st1 := { st with connected := dictSet st.connected uid sid }
    let goOnline := fun u : User => { u with is_online := true, last_seen := some now }
    let st2 := { st1 with users := updateFirst (fun u => u.id = uid) goOnline st1.users }
    match findOne (fun u => u.id = uid) st2.users with
    | some u => { st2 with events := st2.events ++ [Event.user_online uid u.name u.role] }
    | none => st2

/-- Socket.IO `disconnect`: linear scan for the identity mapped to this
handle; when found, drop the mapping, flip the user offline, broadcast
`user_offline` when the user document exists. -/
def disconnect (st : DB) (now : Nat) (sid : String) : DB :=
  match findOne (fun kv => kv.2 = sid) st.connected with
  | none => st
  | some kv =>
    let st1 := { st with connected := dictDel st.connected kv.1 }
    let goOffline := fun u : User => { u with is_online := false, last_seen := some now }
    let st2 := { st1 with users := updateFirst (fun u => u.id = kv.1) goOffline st1.users }
    match findOne (fun u => u.id = kv.1) st2.users with
    | some u => { st2 with events := st2.events ++ [Event.user_offline kv.1 u.name u.role] }
    | none => st2

/-- Reachability through `pushToIdentity`: `create_notification` performs a
targeted emit exactly when this lookup succeeds. -/
def reachable (st : DB) (uid : String) : Bool :=
  (dictGet st.connected uid).isSome

/-- A sequence of task-level updates (time, caller role, request body)
applied to one task document through `taskUpdateCore`. -/
def runUpdates (t : Task) : List (Nat × UserRole × TaskUpdate) → Task
  | [] => t
  | step :: rest => runUpdates (taskUpdateCore t step.1 step.2.1 step.2.2) rest

/-- Whether `update_data` carries a status value differing from the stored
one (the condition guarding the activity/notification block). -/
def statusChanged (stored : Task) (req : TaskUpdate) : Prop :=
  match req.status with
  | some s => ¬ stored.status = s
  | none => False

instance (stored : Task) (req : TaskUpdate) : Decidable (statusChanged stored req) := by
  unfold statusChanged
  match req.status with
  | some s => exact inferInstance
  | none => exact inferInstance

/-! Helper lemmas about the list and dict primitives. -/

theorem applySet_id (t : Task) (ud : UpdateData) : (applySet t ud).id = t.id := rfl

theorem findOne_updateFirst {α : Type} (p : α → Prop) [DecidablePred p] (f : α → α)
    (hf : ∀ a, p a → p (f a)) (l : List α) (x : α) (hx : findOne p l = some x) :
    findOne p (updateFirst p f l) = some (f x) := by
  induction l with
  | nil => simp [findOne] at hx
  | cons a l ih =>
    by_cases ha : p a
    · rw [findOne, if_pos ha] at hx
      injection hx with hx1
      subst hx1
      rw [updateFirst, if_pos ha, findOne, if_pos (hf a ha)]
    · rw [findOne, if_neg ha] at hx
      rw [updateFirst, if_neg ha, findOne, if_neg ha]
      exact ih hx

theorem updateFirst_of_none {α : Type} (p : α → Prop) [DecidablePred p] (f : α → α)
    (l : List α) (hx : findOne p l = none) : updateFirst p f l = l := by
  induction l with
  | nil => rfl
  | cons a l ih =>
    by_cases ha : p a
    · rw [findOne, if_pos ha] at hx
      cases hx
    · rw [findOne, if_neg ha] at hx
      rw [updateFirst, if_neg ha, ih hx]

theorem updateFirst_fixed {α : Type} (p : α → Prop) [DecidablePred p] (f : α → α)
    (l : List α) (x : α) (hx : findOne p l = some x) (hfix : f x = x) :
    updateFirst p f l = l := by
  induction l with
  | nil => rfl
  | cons a l ih =>
    by_cases ha : p a
    · rw [findOne, if_pos ha] at hx
      injection hx with hx1
      subst hx1
      rw [updateFirst, if_pos ha, hfix]
    · rw [findOne, if_neg ha] at hx
      rw [updateFirst, if_neg ha, ih hx]

theorem dictGet_dictSet (m : List (String × String)) (k v : String) :
    dictGet (dictSet m k v) k = some v := by
  induction m with
  | nil => simp [dictSet, dictGet]
  | cons kv rest ih =>
    by_cases hk : kv.1 = k
    · rw [dictSet, if_pos hk, dictGet, if_pos rfl]
    · rw [dictSet, if_neg hk, dictGet, if_neg hk]
      exact ih

theorem dictGet_dictDel (m : List (String × String)) (k : String) :
    dictGet (dictDel m k) k = none := by
  induction m with
  | nil => rfl
  | cons kv rest ih =>
    by_cases hk : kv.1 = k
    · rw [dictDel, if_pos hk]
      exact ih
    · rw [dictDel, if_neg hk, dictGet, if_neg hk]
      exact ih

theorem mem_dictSet_ne (m : List (String × String)) (k v : String) (w : String)
    (hw : w ≠ v) (hnodup : (m.map Prod.fst).Nodup) : (k, w) ∉ dictSet m k v := by
  induction m with
  | nil =>
    intro hmem
    rcases List.mem_singleton.mp hmem with h
    exact hw (congrArg Prod.snd h)
  | cons kv rest ih =>
    rw [List.map_cons, List.nodup_cons] at hnodup
    by_cases hk : kv.1 = k
    · rw [dictSet, if_pos hk]
      intro hmem
      rcases List.mem_cons.mp hmem with h | h
      · exact hw (congrArg Prod.snd h)
      · have hin : kv.1 ∈ rest.map Prod.fst := by
          rw [hk]
          exact List.mem_map.mpr ⟨(k, w), h, rfl⟩
        exact hnodup.1 hin
    · rw [dictSet, if_neg hk]
      intro hmem
      rcases List.mem_cons.mp hmem with h | h
      · exact hk (congrArg Prod.fst h.symm)
      · exact ih hnodup.2 h

/-! Frame lemmas for the activity and notification writers. -/

theorem create_activity_tasks (st : DB) (now : Nat) (a b c d : String) (tid : Option String) :
    (create_activity st now a b c d tid).tasks = st.tasks := rfl

theorem create_activity_users (st : DB) (now : Nat) (a b c d : String) (tid : Option String) :
    (create_activity st now a b c d tid).users = st.users := rfl

theorem create_activity_notifications (st : DB) (now : Nat) (a b c d : String)
    (tid : Option String) :
    (create_activity st now a b c d tid).notifications = st.notifications := rfl

theorem create_activity_len (st : DB) (now : Nat) (a b c d : String) (tid : Option String) :
    (create_activity st now a b c d tid).activities.length = st.activities.length + 1 := by
  simp [create_activity]

theorem create_notification_tasks (st : DB) (now : Nat) (u t c : String) (tid : Option String) :
    (create_notification st now u t c tid).tasks = st.tasks := by
  simp only [create_notification]
  split <;> rfl

theorem create_notification_users (st : DB) (now : Nat) (u t c : String) (tid : Option String) :
    (create_notification st now u t c tid).users = st.users := by
  simp only [create_notification]
  split <;> rfl

theorem create_notification_activities (st : DB) (now : Nat) (u t c : String)
    (tid : Option String) :
    (create_notification st now u t c tid).activities = st.activities := by
  simp only [create_notification]
  split <;> rfl

theorem create_notification_notifications (st : DB) (now : Nat) (u t c : String)
    (tid : Option String) :
    (create_notification st now u t c tid).notifications
      = st.notifications ++ [⟨st.next_id, u, t, c, tid, false, now⟩] := by
  simp only [create_notification]
  split <;> rfl

theorem foldl_notify_tasks (l : List User) (acc : DB) (now : Nat) (ttl cnt : String)
    (tid : Option String) :
    (l.foldl (fun a admin => create_notification a now admin.id ttl cnt tid) acc).tasks
      = acc.tasks := by
  induction l generalizing acc with
  | nil => rfl
  | cons u l ih => rw [List.foldl_cons, ih, create_notification_tasks]

theorem foldl_notify_users (l : List User) (acc : DB) (now : Nat) (ttl cnt : String)
    (tid : Option String) :
    (l.foldl (fun a admin => create_notification a now admin.id ttl cnt tid) acc).users
      = acc.users := by
  induction l generalizing acc with
  | nil => rfl
  | cons u l ih => rw [List.foldl_cons, ih, create_notification_users]

theorem foldl_notify_activities (l : List User) (acc : DB) (now : Nat) (ttl cnt : String)
    (tid : Option String) :
    (l.foldl (fun a admin => create_notification a now admin.id ttl cnt tid) acc).activities
      = acc.activities := by
  induction l generalizing acc with
  | nil => rfl
  | cons u l ih => rw [List.foldl_cons, ih, create_notification_activities]

theorem foldl_notify_user_ids (l : List User) (acc : DB) (now : Nat) (ttl cnt : String)
    (tid : Option String) :
    (l.foldl (fun a admin => create_notification a now admin.id ttl cnt tid) acc).notifications.map
        Notification.user_id
      = acc.notifications.map Notification.user_id ++ l.map User.id := by
  induction l generalizing acc with
  | nil => simp
  | cons u l ih =>
    rw [List.foldl_cons, ih, create_notification_notifications]
    simp

/-! Projections of the update-data builder and the task-level update. -/

theorem buildUpdateData_status (stored : Task) (now : Nat) (role : UserRole) (req : TaskUpdate) :
    (buildUpdateData stored now role req).status = req.status := by
  cases role <;> rfl

theorem taskUpdateCore_status (t : Task) (now : Nat) (role : UserRole) (req : TaskUpdate) :
    (taskUpdateCore t now role req).status = req.status.getD t.status := by
  cases role <;> rfl

theorem taskUpdateCore_updated_at (t : Task) (now : Nat) (role : UserRole) (req : TaskUpdate) :
    (taskUpdateCore t now role req).updated_at = now := by
  cases role <;> rfl

theorem taskUpdateCore_completed_set (t : Task) (now : Nat) (role : UserRole) (req : TaskUpdate)
    (h1 : req.status = some TaskStatus.completed) (h2 : t.status ≠ TaskStatus.completed) :
    (taskUpdateCore t now role req).completed_at = some now := by
  cases role <;>
    simp [taskUpdateCore, buildUpdateData, applySet, filteredRequest, h1, h2]

theorem taskUpdateCore_completed_keep (t : Task) (now : Nat) (role : UserRole) (req : TaskUpdate)
    (h : ¬ (req.status = some TaskStatus.completed ∧ t.status ≠ TaskStatus.completed)) :
    (taskUpdateCore t now role req).completed_at = t.completed_at := by
  have hfr : (filteredRequest role req).status = req.status := by cases role <;> rfl
  cases role <;>
    simp [taskUpdateCore, buildUpdateData, applySet, filteredRequest] <;>
    rw [if_neg (by simpa [filteredRequest] using h)]

/-! Behaviour of the activity/notification block of the update handler. -/

theorem recordStatusChange_none (st : DB) (now : Nat) (caller : User) (tid : String)
    (ud : UpdateData) (td : Task) (h : ud.status = none) :
    recordStatusChange st now caller tid ud td = st := by
  simp [recordStatusChange, h]

theorem recordStatusChange_nochange (st : DB) (now : Nat) (caller : User) (tid : String)
    (ud : UpdateData) (td : Task) (s : TaskStatus)
    (h1 : ud.status = some s) (h2 : td.status = s) :
    recordStatusChange st now caller tid ud td = st := by
  simp [recordStatusChange, h1, h2]

theorem recordStatusChange_tasks (st : DB) (now : Nat) (caller : User) (tid : String)
    (ud : UpdateData) (td : Task) :
    (recordStatusChange st now caller tid ud td).tasks = st.tasks := by
  simp only [recordStatusChange]
  split
  · rfl
  · split
    · split
      · rw [foldl_notify_tasks, create_activity_tasks]
      · apply create_activity_tasks
    · rfl

theorem recordStatusChange_users (st : DB) (now : Nat) (caller : User) (tid : String)
    (ud : UpdateData) (td : Task) :
    (recordStatusChange st now caller tid ud td).users = st.users := by
  simp only [recordStatusChange]
  split
  · rfl
  · split
    · split
      · rw [foldl_notify_users, create_activity_users]
      · apply create_activity_users
    · rfl

theorem recordStatusChange_notifications_admin (st : DB) (now : Nat) (caller : User)
    (tid : String) (ud : UpdateData) (td : Task) (hrole : caller.role = UserRole.admin) :
    (recordStatusChange st now caller tid ud td).notifications = st.notifications := by
  simp only [recordStatusChange]
  split
  · rfl
  · split
    · split
      · rename_i hemp
        rw [hrole] at hemp
        exact UserRole.noConfusion hemp
      · apply create_activity_notifications
    · rfl

theorem recordStatusChange_act_len_pos (st : DB) (now : Nat) (caller : User) (tid : String)
    (ud : UpdateData) (td : Task) (s : TaskStatus)
    (h1 : ud.status = some s) (h2 : ¬ td.status = s) :
    (recordStatusChange st now caller tid ud td).activities.length
      = st.activities.length + 1 := by
  simp only [recordStatusChange, h1]
  rw [if_pos h2]
  split
  · rw [foldl_notify_activities]
    apply create_activity_len
  · apply create_activity_len

theorem recordStatusChange_notify_emp (st : DB) (now : Nat) (caller : User) (tid : String)
    (ud : UpdateData) (td : Task) (s : TaskStatus)
    (hrole : caller.role = UserRole.employee)
    (h1 : ud.status = some s) (h2 : ¬ td.status = s) :
    (recordStatusChange st now caller tid ud td).notifications.map Notification.user_id
      = st.notifications.map Notification.user_id
        ++ ((listFilter (fun u => u.role = UserRole.admin) st.users).take 10).map User.id := by
  simp only [recordStatusChange, h1]
  rw [if_pos h2, if_pos hrole, create_activity_users, foldl_notify_user_ids,
      create_activity_notifications]

/-! Characterisation of the update handler. -/

theorem updateTaskBody_snd (st : DB) (now : Nat) (caller : User) (tid : String)
    (req : TaskUpdate) (td : Task)
    (hfound : findOne (fun t => t.id = tid) st.tasks = some td) :
    (updateTaskBody st now caller tid req td).2
      = Except.ok (taskUpdateCore td now caller.role req) := by
  have hre : findOne (fun t => t.id = tid)
      (updateFirst (fun t => t.id = tid)
        (fun t => applySet t (buildUpdateData td now caller.role req)) st.tasks)
      = some (applySet td (buildUpdateData td now caller.role req)) := by
    apply findOne_updateFirst
    · intro a ha
      rw [applySet_id]
      exact ha
    · exact hfound
  simp only [updateTaskBody, hre, taskUpdateCore]

theorem updateTaskBody_tasks (st : DB) (now : Nat) (caller : User) (tid : String)
    (req : TaskUpdate) (td : Task) :
    (updateTaskBody st now caller tid req td).1.tasks
      = updateFirst (fun t => t.id = tid)
          (fun t => applySet t (buildUpdateData td now caller.role req)) st.tasks := by
  simp only [updateTaskBody]
  rw [recordStatusChange_tasks]

theorem updateTaskBody_notifications_admin (st : DB) (now : Nat) (caller : User) (tid : String)
    (req : TaskUpdate) (td : Task) (hrole : caller.role = UserRole.admin) :
    (updateTaskBody st now caller tid req td).1.notifications = st.notifications := by
  simp only [updateTaskBody]
  rw [recordStatusChange_notifications_admin _ _ _ _ _ _ hrole]

theorem update_task_ok_elim (st : DB) (now : Nat) (caller : User) (tid : String)
    (req : TaskUpdate) (db2 : DB) (t2 : Task)
    (h : update_task st now caller tid req = (db2, Except.ok t2)) :
    ∃ td, findOne (fun t => t.id = tid) st.tasks = some td ∧
      ¬ (caller.role = UserRole.employee ∧ td.assigned_to ≠ some caller.id) ∧
      updateTaskBody st now caller tid req td = (db2, Except.ok t2) := by
  unfold update_task at h
  split at h
  · injection h with h1 h2
    exact Except.noConfusion h2
  · rename_i td hf
    split at h
    · injection h with h1 h2
      exact Except.noConfusion h2
    · rename_i hc
      exact ⟨td, hf, hc, h⟩

theorem update_task_err (st : DB) (now : Nat) (caller : User) (tid : String)
    (req : TaskUpdate) (db2 : DB) (e : Err)
    (h : update_task st now caller tid req = (db2, Except.error e)) : db2 = st := by
  unfold update_task at h
  split at h
  · injection h with h1 h2
    exact h1.symm
  · rename_i td hf
    split at h
    · injection h with h1 h2
      exact h1.symm
    · have hsnd := congrArg Prod.snd h
      rw [updateTaskBody_snd st now caller tid req td hf] at hsnd
      exact Except.noConfusion hsnd

theorem updateTaskBody_act_len (st : DB) (now : Nat) (caller : User) (tid : String)
    (req : TaskUpdate) (td : Task) :
    (updateTaskBody st now caller tid req td).1.activities.length
      = st.activities.length + (if statusChanged td req then 1 else 0) := by
  simp only [updateTaskBody]
  cases hreq : req.status with
  | none =>
    rw [recordStatusChange_none _ _ _ _ _ _ (by rw [buildUpdateData_status, hreq])]
    simp [statusChanged, hreq]
  | some s =>
    by_cases hts : td.status = s
    · rw [recordStatusChange_nochange _ _ _ _ _ _ s
        (by rw [buildUpdateData_status, hreq]) hts]
      simp [statusChanged, hreq, hts]
    · rw [recordStatusChange_act_len_pos _ _ _ _ _ _ s
        (by rw [buildUpdateData_status, hreq]) hts]
      simp [statusChanged, hreq, hts]

theorem updateTaskBody_notify_emp (st : DB) (now : Nat) (caller : User) (tid : String)
    (req : TaskUpdate) (td : Task) (s : TaskStatus)
    (hrole : caller.role = UserRole.employee)
    (h1 : req.status = some s) (h2 : ¬ td.status = s) :
    (updateTaskBody st now caller tid req td).1.notifications.map Notification.user_id
      = st.notifications.map Notification.user_id
        ++ ((listFilter (fun u => u.role = UserRole.admin) st.users).take 10).map User.id := by
  simp only [updateTaskBody]
  rw [recordStatusChange_notify_emp _ _ _ _ _ _ s hrole
    (by rw [buildUpdateData_status]; exact h1) h2]

theorem updateTaskBody_notifications_nochange (st : DB) (now : Nat) (caller : User)
    (tid : String) (req : TaskUpdate) (td : Task)
    (h : ¬ statusChanged td req) :
    (updateTaskBody st now caller tid req td).1.notifications = st.notifications := by
  simp only [updateTaskBody]
  cases hreq : req.status with
  | none =>
    rw [recordStatusChange_none _ _ _ _ _ _ (by rw [buildUpdateData_status, hreq])]
  | some s =>
    by_cases hts : td.status = s
    · rw [recordStatusChange_nochange _ _ _ _ _ _ s
        (by rw [buildUpdateData_status, hreq]) hts]
    · exact absurd (by simpa [statusChanged, hreq] using hts) h

/-! Counting lemmas for the dashboard aggregates. -/

theorem countDocs_true {α : Type} (l : List α) :
    countDocs (fun _ => True) l = l.length := by
  induction l with
  | nil => rfl
  | cons x xs ih =>
    simp [countDocs, ih]
    omega

theorem countDocs_not_split {α : Type} (q : α → Prop) [DecidablePred q] (l : List α) :
    countDocs q l + countDocs (fun a => ¬ q a) l = l.length := by
  induction l with
  | nil => rfl
  | cons x xs ih =>
    by_cases hx : q x <;> simp [countDocs, hx] <;> omega

theorem countDocs_and_split {α : Type} (p q : α → Prop) [DecidablePred p] [DecidablePred q]
    (l : List α) :
    countDocs (fun a => p a ∧ q a) l + countDocs (fun a => p a ∧ ¬ q a) l
      = countDocs p l := by
  induction l with
  | nil => rfl
  | cons x xs ih =>
    by_cases hp : p x <;> by_cases hq : q x <;> simp [countDocs, hp, hq] <;> omega

/-! Presence-registry lemmas. -/

theorem connect_connected (st : DB) (now : Nat) (sid uid : String) :
    (connect st now sid (some (Token.signed (some uid)))).connected
      = dictSet st.connected uid sid := by
  simp only [connect]
  split <;> rfl

theorem disconnect_connected (st : DB) (now : Nat) (sid : String) (kv : String × String)
    (h : findOne (fun x => x.2 = sid) st.connected = some kv) :
    (disconnect st now sid).connected = dictDel st.connected kv.1 := by
  simp only [disconnect, h]
  split <;> rfl

/-! Shared concrete fixtures for witnesses and counterexamples. -/

def emptyDB : DB :=
  { users := [], tasks := [], activities := [], notifications := [],
    connected := [], events := [], next_id := 0 }

def baseTask : Task :=
  { id := "t1", title := "T", description := "d", priority := TaskPriority.high,
    status := TaskStatus.not_started, assigned_to := some "e1", assigned_by := "a1",
    created_at := 0, due_date := none, completed_at := none, estimated_hours := none,
    actual_hours := none, updated_at := 0 }

def emptyReq : TaskUpdate :=
  { title := none, description := none, priority := none, status := none,
    assigned_to := none, due_date := none, estimated_hours := none, actual_hours := none }

def mkUser (uid nm : String) (role : UserRole) : User :=
  { id := uid, email := uid, name := nm, role := role, is_active := true,
    is_online := false, last_seen := none }

/-! Claim C1. -/

/-- Claim C1: on a successful task update by an employee caller (the task's
assignee), every requested field other than status and actual_hours is
silently dropped (not an error) and retains its stored value: the resulting
stored and returned task keeps the stored title, description, priority,
assignee, due date and estimated hours, whatever the request supplied. -/
theorem c1_employee_field_mask (st : DB) (now : Nat) (caller : User) (tid : String)
    (req : TaskUpdate) (stored : Task) (db2 : DB) (t2 : Task)
    (hrole : caller.role = UserRole.employee)
    (hfound : findOne (fun t => t.id = tid) st.tasks = some stored)
    (h : update_task st now caller tid req = (db2, Except.ok t2)) :
    findOne (fun t => t.id = tid) db2.tasks = some t2 ∧
    t2.title = stored.title ∧ t2.description = stored.description ∧
    t2.priority = stored.priority ∧ t2.assigned_to = stored.assigned_to ∧
    t2.due_date = stored.due_date ∧ t2.estimated_hours = stored.estimated_hours := by
  obtain ⟨td, hf2, hc, hbody⟩ := update_task_ok_elim st now caller tid req db2 t2 h
  rw [hfound] at hf2
  injection hf2 with he
  subst he
  have hsnd := congrArg Prod.snd hbody
  rw [updateTaskBody_snd st now caller tid req stored hfound] at hsnd
  injection hsnd with ht
  subst ht
  refine ⟨?store, ?fields⟩
  · have hfst : (updateTaskBody st now caller tid req stored).1 = db2 :=
      congrArg Prod.fst hbody
    rw [← hfst, updateTaskBody_tasks]
    exact findOne_updateFirst _ _ (fun a ha => by rw [applySet_id]; exact ha) _ _ hfound
  · rw [hrole]
    exact ⟨rfl, rfl, rfl, rfl, rfl, rfl⟩

def c1Emp : User := mkUser "e1" "E" UserRole.employee

def c1Req : TaskUpdate :=
  { title := some "X", description := some "y", priority := some TaskPriority.low,
    status := some TaskStatus.in_progress, assigned_to := some (some "e9"),
    due_date := some (some 9), estimated_hours := some (some 9),
    actual_hours := some (some 3) }

def c1State : DB := { emptyDB with tasks := [baseTask] }

/-- Witness for C1 at a concrete employee update that tries to rewrite every
field. -/
theorem c1_employee_field_mask_witness :
    findOne (fun t => t.id = "t1") (update_task c1State 5 c1Emp "t1" c1Req).1.tasks
        = some (taskUpdateCore baseTask 5 c1Emp.role c1Req)
    ∧ (taskUpdateCore baseTask 5 c1Emp.role c1Req).title = baseTask.title
    ∧ (taskUpdateCore baseTask 5 c1Emp.role c1Req).description = baseTask.description
    ∧ (taskUpdateCore baseTask 5 c1Emp.role c1Req).priority = baseTask.priority
    ∧ (taskUpdateCore baseTask 5 c1Emp.role c1Req).assigned_to = baseTask.assigned_to
    ∧ (taskUpdateCore baseTask 5 c1Emp.role c1Req).due_date = baseTask.due_date
    ∧ (taskUpdateCore baseTask 5 c1Emp.role c1Req).estimated_hours = baseTask.estimated_hours :=
  c1_employee_field_mask c1State 5 c1Emp "t1" c1Req baseTask
    (update_task c1State 5 c1Emp "t1" c1Req).1
    (taskUpdateCore baseTask 5 c1Emp.role c1Req) rfl (by decide) rfl

/-! Claim C2. -/

/-- Claim C2 (amended): completed_at is written, to the update time, exactly
on transitions into completed (requested status completed while the stored
status is not completed); every other update, in particular a
completed-to-completed one, leaves completed_at unchanged, so once a task
has ever entered completed its completed_at stays non-null over any further
sequence of updates — even when the current status is no longer completed
(the code never clears it, refuting the claimed equivalence). -/
theorem c2_completed_at_amended :
    (∀ (t : Task) (now : Nat) (role : UserRole) (req : TaskUpdate),
        req.status = some TaskStatus.completed → t.status ≠ TaskStatus.completed →
        (taskUpdateCore t now role req).completed_at = some now)
    ∧ (∀ (t : Task) (now : Nat) (role : UserRole) (req : TaskUpdate),
        ¬ (req.status = some TaskStatus.completed ∧ t.status ≠ TaskStatus.completed) →
        (taskUpdateCore t now role req).completed_at = t.completed_at)
    ∧ (∀ (us : List (Nat × UserRole × TaskUpdate)) (t : Task),
        (t.status = TaskStatus.completed → t.completed_at ≠ none) →
        ((runUpdates t us).status = TaskStatus.completed →
          (runUpdates t us).completed_at ≠ none)) := by
  refine ⟨taskUpdateCore_completed_set, taskUpdateCore_completed_keep, ?inv⟩
  intro us
  induction us with
  | nil =>
    intro t hinv
    exact hinv
  | cons step rest ih =>
    intro t hinv
    rw [runUpdates]
    apply ih
    intro hstat
    by_cases hcase : step.2.2.status = some TaskStatus.completed
        ∧ t.status ≠ TaskStatus.completed
    · rw [taskUpdateCore_completed_set _ _ _ _ hcase.1 hcase.2]
      exact Option.noConfusion
    · rw [taskUpdateCore_completed_keep _ _ _ _ hcase]
      apply hinv
      rw [taskUpdateCore_status] at hstat
      cases hreq : step.2.2.status with
      | none =>
        rw [hreq] at hstat
        exact hstat
      | some s =>
        rw [hreq] at hstat
        simp only [Option.getD_some] at hstat
        subst hstat
        by_contra hne
        exact hcase ⟨by rw [hreq], hne⟩

def c2Step1 : TaskUpdate := { emptyReq with status := some TaskStatus.completed }

def c2Step2 : TaskUpdate := { emptyReq with status := some TaskStatus.in_progress }

def c2Emp : User := mkUser "e1" "E" UserRole.employee

def c2DoneTask : Task :=
  { baseTask with status := TaskStatus.completed, completed_at := some 3 }

def c2State : DB := { emptyDB with tasks := [baseTask] }

def c2Db1 : DB := (update_task c2State 1 c2Emp "t1" c2Step1).1

def c2Db2 : DB := (update_task c2Db1 2 c2Emp "t1" c2Step2).1

/-- Counterexample to C2 as stated: completing the task and then moving it
back to in progress leaves the stored completed_at non-null while the most
recent effective status is not completed, refuting the claimed
if-and-only-if. -/
theorem c2_counterexample :
    (findOne (fun t => t.id = "t1") c2Db2.tasks).map Task.status
        = some TaskStatus.in_progress
    ∧ (findOne (fun t => t.id = "t1") c2Db2.tasks).map Task.completed_at
        = some (some 1) := by
  constructor <;> rfl

/-- Witness for C2 (amended) at concrete transitions: entering completed
stamps the time, a completed-to-completed update keeps the old stamp, and
after entering completed the stamp is non-null. -/
theorem c2_completed_at_amended_witness :
    (taskUpdateCore baseTask 7 UserRole.admin c2Step1).completed_at = some 7
    ∧ (taskUpdateCore c2DoneTask 9 UserRole.admin c2Step1).completed_at = some 3
    ∧ (runUpdates baseTask [(1, UserRole.employee, c2Step1)]).completed_at ≠ none :=
  ⟨c2_completed_at_amended.1 baseTask 7 UserRole.admin c2Step1 rfl (by decide),
   c2_completed_at_amended.2.1 c2DoneTask 9 UserRole.admin c2Step1 (by decide),
   c2_completed_at_amended.2.2 [(1, UserRole.employee, c2Step1)] baseTask
     (by decide) (by decide)⟩

/-! Claim C4. -/

/-- Claim C4: a successful task update appends exactly one activity record
when the role-filtered request carries a status differing from the stored
one, and zero activity records otherwise; in particular an update in which
no requested value differs from the stored value appends none. -/
theorem c4_activity_iff_status_change (st : DB) (now : Nat) (caller : User) (tid : String)
    (req : TaskUpdate) (stored : Task) (db2 : DB) (t2 : Task)
    (hfound : findOne (fun t => t.id = tid) st.tasks = some stored)
    (h : update_task st now caller tid req = (db2, Except.ok t2)) :
    db2.activities.length
      = st.activities.length + (if statusChanged stored req then 1 else 0) := by
  obtain ⟨td, hf2, hc, hbody⟩ := update_task_ok_elim st now caller tid req db2 t2 h
  rw [hfound] at hf2
  injection hf2 with he
  subst he
  have hfst : (updateTaskBody st now caller tid req stored).1 = db2 :=
    congrArg Prod.fst hbody
  rw [← hfst]
  exact updateTaskBody_act_len st now caller tid req stored

def c4State : DB := { emptyDB with tasks := [baseTask] }

def c4Admin : User := mkUser "a1" "A" UserRole.admin

def c4Req : TaskUpdate := { emptyReq with title := some "R" }

/-- Witness for C4 at a concrete no-status-change update (a title-only
admin update): zero activity records are appended. -/
theorem c4_activity_iff_status_change_witness :
    (update_task c4State 5 c4Admin "t1" c4Req).1.activities.length
      = c4State.activities.length + (if statusChanged baseTask c4Req then 1 else 0) :=
  c4_activity_iff_status_change c4State 5 c4Admin "t1" c4Req baseTask
    (update_task c4State 5 c4Admin "t1" c4Req).1
    (taskUpdateCore baseTask 5 c4Admin.role c4Req) (by decide) rfl

/-! Claim C7. -/

/-- Claim C7: whenever the update endpoint answers with an error — a
missing, invalid or expired token, an unknown user, a missing task, or an
employee touching a task not assigned to them — the state is returned
unchanged: no task, activity or notification document is created or
modified and no event is broadcast. -/
theorem c7_error_no_side_effects (st : DB) (now : Nat) (tok : Token) (tid : String)
    (req : TaskUpdate) (db2 : DB) (e : Err)
    (h : update_task_endpoint st now tok tid req = (db2, Except.error e)) : db2 = st := by
  unfold update_task_endpoint at h
  split at h
  · injection h with h1 h2
    exact h1.symm
  · exact update_task_err _ _ _ _ _ _ _ h

/-- Witness for C7 at a concrete malformed-token request. -/
theorem c7_error_no_side_effects_witness :
    (update_task_endpoint c1State 0 Token.malformed "t1" emptyReq).1 = c1State :=
  c7_error_no_side_effects c1State 0 Token.malformed "t1" emptyReq
    (update_task_endpoint c1State 0 Token.malformed "t1" emptyReq).1
    (Err.unauthenticated "Invalid token") rfl

/-! Claim C9. -/

/-- Claim C9: every successful task update, including one whose requested
field set is empty or all equal to the stored values, writes the task
document with updated_at set to the current time; the returned task is the
stored one. -/
theorem c9_updated_at_stamped (st : DB) (now : Nat) (caller : User) (tid : String)
    (req : TaskUpdate) (stored : Task) (db2 : DB) (t2 : Task)
    (hfound : findOne (fun t => t.id = tid) st.tasks = some stored)
    (h : update_task st now caller tid req = (db2, Except.ok t2)) :
    t2.updated_at = now ∧ findOne (fun t => t.id = tid) db2.tasks = some t2 := by
  obtain ⟨td, hf2, hc, hbody⟩ := update_task_ok_elim st now caller tid req db2 t2 h
  rw [hfound] at hf2
  injection hf2 with he
  subst he
  have hsnd := congrArg Prod.snd hbody
  rw [updateTaskBody_snd st now caller tid req stored hfound] at hsnd
  injection hsnd with ht
  subst ht
  refine ⟨taskUpdateCore_updated_at stored now caller.role req, ?stored⟩
  have hfst : (updateTaskBody st now caller tid req stored).1 = db2 :=
    congrArg Prod.fst hbody
  rw [← hfst, updateTaskBody_tasks]
  exact findOne_updateFirst _ _ (fun a ha => by rw [applySet_id]; exact ha) _ _ hfound

def c9State : DB := { emptyDB with tasks := [baseTask] }

def c9Admin : User := mkUser "a1" "A" UserRole.admin

/-- Witness for C9 at a concrete no-op update (empty request body): the
stored updated_at becomes the call time 5, differing from the prior stored
value 0. -/
theorem c9_updated_at_stamped_witness :
    (taskUpdateCore baseTask 5 c9Admin.role emptyReq).updated_at = 5
    ∧ findOne (fun t => t.id = "t1") (update_task c9State 5 c9Admin "t1" emptyReq).1.tasks
        = some (taskUpdateCore baseTask 5 c9Admin.role emptyReq)
    ∧ baseTask.updated_at = 0 :=
  have happ := c9_updated_at_stamped c9State 5 c9Admin "t1" emptyReq baseTask
    (update_task c9State 5 c9Admin "t1" emptyReq).1
    (taskUpdateCore baseTask 5 c9Admin.role emptyReq) (by decide) rfl
  ⟨happ.1, happ.2, rfl⟩

/-! Claim C10. -/

/-- Claim C10: in every dashboard-stats response, for an admin as well as
for an employee, total_tasks equals completed_tasks plus pending_tasks,
because the completed filter and the not-completed filter partition the
counted task set. -/
theorem c10_stats_partition (st : DB) (caller : User) :
    (get_dashboard_stats st caller).total_tasks
      = (get_dashboard_stats st caller).completed_tasks
        + (get_dashboard_stats st caller).pending_tasks := by
  unfold get_dashboard_stats
  by_cases hrole : caller.role = UserRole.admin
  · rw [if_pos hrole]
    rw [countDocs_true]
    exact (countDocs_not_split (fun t => t.status = TaskStatus.completed) st.tasks).symm
  · rw [if_neg hrole]
    exact (countDocs_and_split (fun t => t.assigned_to = some caller.id)
      (fun t => t.status = TaskStatus.completed) st.tasks).symm

/-! Claim C3. -/

/-- Claim C3 (amended): a successful status-changing update by an employee
caller appends exactly one notification per admin among the first ten
registered admins, in store order, addressed to that admin — the admin
query is read through to_list(10), so admins beyond the tenth receive none;
a successful update by an admin caller appends no notification at all. -/
theorem c3_status_notifications_amended (st : DB) (now : Nat) (caller : User) (tid : String)
    (req : TaskUpdate) (stored : Task) (db2 : DB) (t2 : Task) (s : TaskStatus)
    (hfound : findOne (fun t => t.id = tid) st.tasks = some stored)
    (h : update_task st now caller tid req = (db2, Except.ok t2)) :
    (caller.role = UserRole.employee → req.status = some s → ¬ stored.status = s →
      db2.notifications.map Notification.user_id
        = st.notifications.map Notification.user_id
          ++ ((listFilter (fun u => u.role = UserRole.admin) st.users).take 10).map User.id)
    ∧ (caller.role = UserRole.admin → db2.notifications = st.notifications) := by
  obtain ⟨td, hf2, hc, hbody⟩ := update_task_ok_elim st now caller tid req db2 t2 h
  rw [hfound] at hf2
  injection hf2 with he
  subst he
  have hfst : (updateTaskBody st now caller tid req stored).1 = db2 :=
    congrArg Prod.fst hbody
  constructor
  · intro hrole h1 h2
    rw [← hfst]
    exact updateTaskBody_notify_emp st now caller tid req stored s hrole h1 h2
  · intro hrole
    rw [← hfst]
    exact updateTaskBody_notifications_admin st now caller tid req stored hrole

def c3Admins : List User :=
  (List.range 11).map (fun i => mkUser (toString i) "A" UserRole.admin)

def c3Emp : User := mkUser "e1" "E" UserRole.employee

def c3State : DB := { emptyDB with users := c3Admins ++ [c3Emp], tasks := [baseTask] }

def c3Req : TaskUpdate := { emptyReq with status := some TaskStatus.in_progress }

/-- Counterexample to C3 as stated: with eleven registered admins, an
employee-performed status change creates ten notifications, not one per
currently registered admin. -/
theorem c3_counterexample :
    (update_task c3State 5 c3Emp "t1" c3Req).1.notifications.length = 10
    ∧ (listFilter (fun u => u.role = UserRole.admin) c3State.users).length = 11 := by
  constructor <;> rfl

def c3wUsers : List User := [mkUser "a1" "A" UserRole.admin, mkUser "a2" "B" UserRole.admin]

def c3wState : DB := { emptyDB with users := c3wUsers, tasks := [baseTask] }

/-- Witness for C3 (amended) at a concrete store with two admins. -/
theorem c3_status_notifications_amended_witness :
    (update_task c3wState 5 c3Emp "t1" c3Req).1.notifications.map Notification.user_id
      = c3wState.notifications.map Notification.user_id
        ++ ((listFilter (fun u => u.role = UserRole.admin) c3wState.users).take 10).map
            User.id :=
  (c3_status_notifications_amended c3wState 5 c3Emp "t1" c3Req baseTask
      (update_task c3wState 5 c3Emp "t1" c3Req).1
      (taskUpdateCore baseTask 5 c3Emp.role c3Req) TaskStatus.in_progress
      (by decide) rfl).1 rfl rfl (by decide)

/-- The notifications list after the read-marking `$set` of
`mark_notification_read`. -/
def markedList (st : DB) (caller : User) (nid : Nat) : List Notification :=
  updateFirst (fun x => x.id = nid ∧ x.user_id = caller.id) (fun x => { x with is_read := true }) st.notifications

/-! Claim C5. -/

/-- Claim C5 (amended): marking a notification read succeeds and sets the
read flag exactly when a notification with that id belongs to the caller
and is still unread; it fails NotFound both when no notification with that
id belongs to the caller and — refuting the claim as stated — when the
caller's notification is already read (MongoDB then reports zero modified
documents). In every failing case the state is unchanged. -/
theorem c5_mark_read_amended (st : DB) (caller : User) (nid : Nat) :
    (∀ n, findOne (fun x => x.id = nid ∧ x.user_id = caller.id) st.notifications = some n →
        n.is_read = false →
        mark_notification_read st caller nid
          = ({ st with notifications := markedList st caller nid }, Except.ok ()))
    ∧ (∀ n, findOne (fun x => x.id = nid ∧ x.user_id = caller.id) st.notifications = some n →
        n.is_read = true →
        mark_notification_read st caller nid
          = (st, Except.error (Err.notFound "Notification not found")))
    ∧ (findOne (fun x => x.id = nid ∧ x.user_id = caller.id) st.notifications = none →
        mark_notification_read st caller nid
          = (st, Except.error (Err.notFound "Notification not found"))) := by
  refine ⟨?unread, ?read, ?missing⟩
  · intro n hfind hunread
    simp only [mark_notification_read, hfind, hunread, markedList]
    simp
  · intro n hfind hread
    have hfix : updateFirst (fun x => x.id = nid ∧ x.user_id = caller.id)
        (fun x => { x with is_read := true }) st.notifications = st.notifications := by
      apply updateFirst_fixed _ _ _ n hfind
      obtain ⟨a, b, c, d, e, f, g⟩ := n
      simp only at hread
      subst hread
      rfl
    simp only [mark_notification_read, hfind, hread, hfix]
    simp
  · intro hnone
    have hfix := updateFirst_of_none (fun x => x.id = nid ∧ x.user_id = caller.id)
      (fun x => { x with is_read := true }) st.notifications hnone
    simp only [mark_notification_read, hnone, hfix]
    simp

def c5Notif : Notification :=
  { id := 0, user_id := "e1", title := "N", content := "c", task_id := none,
    is_read := true, created_at := 0 }

def c5Caller : User := mkUser "e1" "E" UserRole.employee

def c5State : DB := { emptyDB with notifications := [c5Notif] }

/-- Counterexample to C5 as stated: a notification that exists and belongs
to the caller but is already read is answered with NotFound, although the
claim requires success whenever the notification belongs to the caller. -/
theorem c5_counterexample :
    findOne (fun x => x.id = 0 ∧ x.user_id = c5Caller.id) c5State.notifications = some c5Notif
    ∧ (mark_notification_read c5State c5Caller 0).2
        = Except.error (Err.notFound "Notification not found") := by
  constructor <;> rfl

def c5wNotif : Notification := { c5Notif with is_read := false }

def c5wState : DB := { emptyDB with notifications := [c5wNotif] }

/-- Witness for C5 (amended) at a concrete unread notification of the
caller. -/
theorem c5_mark_read_amended_witness :
    mark_notification_read c5wState c5Caller 0
      = ({ c5wState with notifications := markedList c5wState c5Caller 0 }, Except.ok ()) :=
  (c5_mark_read_amended c5wState c5Caller 0).1 c5wNotif (by decide) rfl

/-! Claim C6. -/

/-- Claim C6: after a socket connect with a valid token for an identity,
that identity is reachable through the targeted-delivery lookup and is
mapped to the new handle (so a reconnect replaces the previous mapping, and
with unique registry keys the pair for the old handle is gone); after a
disconnect of the handle the registry scan resolves for that identity, the
identity is no longer reachable. -/
theorem c6_presence :
    (∀ (st : DB) (now : Nat) (sid uid : String),
        dictGet (connect st now sid (some (Token.signed (some uid)))).connected uid
          = some sid)
    ∧ (∀ (st : DB) (now : Nat) (sid uid : String),
        findOne (fun kv => kv.2 = sid) st.connected = some (uid, sid) →
        reachable (disconnect st now sid) uid = false)
    ∧ (∀ (st : DB) (now : Nat) (h0 h1 uid : String),
        (st.connected.map Prod.fst).Nodup → h0 ≠ h1 →
        (uid, h0) ∉ (connect st now h1 (some (Token.signed (some uid)))).connected) := by
  refine ⟨?conn, ?disc, ?repl⟩
  · intro st now sid uid
    rw [connect_connected]
    exact dictGet_dictSet st.connected uid sid
  · intro st now sid uid hfind
    unfold reachable
    rw [disconnect_connected st now sid (uid, sid) hfind]
    rw [dictGet_dictDel]
    rfl
  · intro st now h0 h1 uid hnodup hne
    rw [connect_connected]
    exact mem_dictSet_ne st.connected uid h1 h0 hne hnodup

/-- Witness for C6 at a concrete connect, disconnect, and reconnect. -/
theorem c6_presence_witness :
    dictGet (connect emptyDB 0 "s1" (some (Token.signed (some "u1")))).connected "u1"
        = some "s1"
    ∧ reachable (disconnect { emptyDB with connected := [("u1", "s1")] } 1 "s1") "u1" = false
    ∧ ("u1", "s1") ∉ (connect { emptyDB with connected := [("u1", "s1")] } 2 "s2"
        (some (Token.signed (some "u1")))).connected :=
  ⟨c6_presence.1 emptyDB 0 "s1" "u1",
   c6_presence.2.1 { emptyDB with connected := [("u1", "s1")] } 1 "s1" "u1" (by decide),
   c6_presence.2.2 { emptyDB with connected := [("u1", "s1")] } 2 "s1" "s2" "u1"
     (by decide) (by decide)⟩

/-! Claim C8. -/

/-- Claim C8 (amended): an admin caller listing tasks receives every stored
task provided at most one thousand are stored (the query is read through
to_list(1000), refuting the unconditional claim); an employee caller
receives exactly the stored tasks assigned to them under the same cap; and
an employee reading a single task not assigned to them is rejected with
Forbidden. -/
theorem c8_role_scoped_access_amended :
    (∀ (st : DB) (caller : User), caller.role = UserRole.admin →
        st.tasks.length ≤ 1000 → get_tasks st caller = st.tasks)
    ∧ (∀ (st : DB) (caller : User), caller.role = UserRole.employee →
        (listFilter (fun t => t.assigned_to = some caller.id) st.tasks).length ≤ 1000 →
        get_tasks st caller = listFilter (fun t => t.assigned_to = some caller.id) st.tasks)
    ∧ (∀ (st : DB) (caller : User) (tid : String) (t : Task),
        caller.role = UserRole.employee →
        findOne (fun x => x.id = tid) st.tasks = some t →
        t.assigned_to ≠ some caller.id →
        get_task st caller tid = Except.error (Err.forbidden "Access denied")) := by
  refine ⟨?adm, ?emp, ?single⟩
  · intro st caller hrole hlen
    unfold get_tasks
    rw [if_pos hrole]
    exact List.take_of_length_le hlen
  · intro st caller hrole hlen
    unfold get_tasks
    rw [if_neg (by rw [hrole]; exact UserRole.noConfusion)]
    exact List.take_of_length_le hlen
  · intro st caller tid t hrole hfind hne
    simp only [get_task, hfind]
    rw [if_pos ⟨hrole, hne⟩]

def mkStampedTask (i : Nat) : Task := { baseTask with created_at := i }

def c8Tasks : List Task := (List.range 1001).map mkStampedTask

def c8State : DB := { emptyDB with tasks := c8Tasks }

def c8Admin : User := mkUser "a1" "A" UserRole.admin

set_option maxRecDepth 10000 in
/-- Counterexample to C8 as stated: with 1001 stored tasks, the task whose
creation stamp is 1000 is stored but absent from the admin listing, because
the query is capped at 1000 documents. -/
theorem c8_counterexample :
    mkStampedTask 1000 ∈ c8State.tasks
    ∧ mkStampedTask 1000 ∉ get_tasks c8State c8Admin := by
  have hr : List.range 1001 = List.range 1000 ++ [1000] := List.range_succ 1000
  have hsplit : c8Tasks = (List.range 1000).map mkStampedTask ++ [mkStampedTask 1000] := by
    unfold c8Tasks
    rw [hr, List.map_append, List.map_cons, List.map_nil]
  constructor
  · show _ ∈ c8Tasks
    rw [hsplit]
    exact List.mem_append_right _ (List.mem_singleton.mpr rfl)
  · intro hmem
    have hget : get_tasks c8State c8Admin = c8Tasks.take 1000 := by
      have hrole : c8Admin.role = UserRole.admin := rfl
      unfold get_tasks
      rw [if_pos hrole]
      rfl
    rw [hget, hsplit, List.take_left' (by simp)] at hmem
    obtain ⟨i, hi, heq⟩ := List.mem_map.mp hmem
    have hieq : i = 1000 := congrArg Task.created_at heq
    rw [List.mem_range] at hi
    omega

def c8wState : DB := { emptyDB with tasks := [baseTask] }

def c8wEmp : User := mkUser "e2" "F" UserRole.employee

/-- Witness for C8 (amended) at a one-task store: the admin listing returns
the full store, and an employee who is not the assignee is rejected on a
single-task read. -/
theorem c8_role_scoped_access_amended_witness :
    get_tasks c8wState c8Admin = c8wState.tasks
    ∧ get_task c8wState c8wEmp "t1" = Except.error (Err.forbidden "Access denied") :=
  ⟨c8_role_scoped_access_amended.1 c8wState c8Admin rfl (by decide),
   c8_role_scoped_access_amended.2.2 c8wState c8wEmp "t1" baseTask rfl (by decide)
     (by decide)⟩

end TaskVision
